import Mathlib

/-!
Shallow embedding of `src/venezia.py` (Temporal Rainfall and Flood Map Viewer).

The embedding models, over exact rational arithmetic:

* the affine georeferencing transform and its exact inverse
  (rasterio `Affine`; `transform * (col, row) = (x, y)`,
  `~transform * (x, y) = (col, row)`);
* the click-to-pixel conversion of `main` (lines 226-238):
  `py, px = ~transform * (lon, lat); px, py = int(px), int(py)` followed by
  the bounds check `0 <= px < data.shape[1] and 0 <= py < data.shape[0]`
  and the read `data[py, px]`;
* the NaN-skipping statistics `np.nanmin / nanmax / nanmean / nanstd`
  used by `main` (lines 244-247) and `create_colormap` (lines 111-119),
  with `Option ℚ` samples: `none` stands for a NaN sample, and a `none`
  result stands for the NaN that numpy returns on an all-NaN input;
* `create_colormap` (lines 111-119), which builds a `LinearColormap` with
  the fixed color list `['yellow', 'orange', 'red']` and
  `vmin = nanmin, vmax = nanmax`, ignoring its `colormap_name` argument;
* `list_s3_files` (lines 74-95): the S3 call outcome is passed in
  explicitly (`S3Outcome`), the loop filters keys ending case-insensitively
  in `.tif`/`.tiff` and builds `s3://bucket/key` URIs; every exception
  path returns the empty list.
-/

/-- The 6-coefficient affine georeferencing transform, in rasterio's
coefficient order: `x = a*col + b*row + c`, `y = d*col + e*row + f`. -/
structure Affine where
  a : ℚ
  b : ℚ
  c : ℚ
  d : ℚ
  e : ℚ
  f : ℚ

/-- Forward application: `transform * (col, row) = (x, y)`. -/
def Affine.fwd (t : Affine) (col row : ℚ) : ℚ × ℚ :=
  (t.a * col + t.b * row + t.c, t.d * col + t.e * row + t.f)

/-- Determinant of the linear part. -/
def Affine.det (t : Affine) : ℚ := t.a * t.e - t.b * t.d

/-- Exact inverse application: `~transform * (x, y) = (col, row)`
(the algebraic inverse of the full 6-coefficient transform, obtained by
solving `x - c = a*col + b*row`, `y - f = d*col + e*row`). -/
def Affine.inv (t : Affine) (x y : ℚ) : ℚ × ℚ :=
  ((t.e * (x - t.c) - t.b * (y - t.f)) / t.det,
   (t.a * (y - t.f) - t.d * (x - t.c)) / t.det)

/-- Python's `int()` on a fraction: truncation toward zero
(`int(2.7) = 2`, `int(-2.7) = -2`). A rational is `num / den` in lowest
terms with `den > 0`, and `Int.tdiv` is T-division (rounding the exact
quotient toward zero), so this is exactly Python's `int()`. -/
def pyInt (q : ℚ) : ℤ :=
  q.num.tdiv (q.den : ℤ)

/-- Floor of a rational, toward negative infinity: `Int.fdiv` is
F-division, rounding the exact quotient `num / den` (with `den > 0`)
down. -/
def ratFloor (q : ℚ) : ℤ :=
  q.num.fdiv (q.den : ℤ)

/-- Lines 230-231 of `main`:
`py, px = ~transform * (lon, lat); px, py = int(px), int(py)`.
The pair returned is `(py, px)` exactly as the code then uses it:
`py` (first component of the inverse output) is used as the ROW index
(`data[py, px]`, checked against `data.shape[0]`) and `px` (second
component) as the COLUMN index (checked against `data.shape[1]`). -/
def codeRowCol (t : Affine) (lat lon : ℚ) : ℤ × ℤ :=
  let p := t.inv lon lat
  (pyInt p.1, pyInt p.2)

/-- A loaded single-band raster: `rows = data.shape[0]`,
`cols = data.shape[1]`, `cell r c = data[r, c]` (defined on the
in-bounds index range, as for a numpy array). -/
structure RasterGrid (α : Type) where
  rows : ℕ
  cols : ℕ
  cell : ℕ → ℕ → α

/-- Lines 228-238 of `main`: resolve the clicked `(lat, lon)` to pixel
indices, bounds check `0 <= px < data.shape[1] and 0 <= py < data.shape[0]`,
and read `data[py, px]`; when the check fails nothing is written to the
pixel-value container (the "no value" outcome, `none` here). -/
def pixelQuery {α : Type} (g : RasterGrid α) (t : Affine) (lat lon : ℚ) : Option α :=
  if 0 ≤ (codeRowCol t lat lon).2 ∧ (codeRowCol t lat lon).2 < (g.cols : ℤ) ∧
      0 ≤ (codeRowCol t lat lon).1 ∧ (codeRowCol t lat lon).1 < (g.rows : ℤ) then
    some (g.cell (codeRowCol t lat lon).1.toNat (codeRowCol t lat lon).2.toNat)
  else
    none

/-- The identity transform `Affine(1, 0, 0, 0, 1, 0)`: `x = col`, `y = row`. -/
def idAffine : Affine := ⟨1, 0, 0, 0, 1, 0⟩

/-- The spec's forward conversion `pixelToGeo(transform, row, col)`:
the transform applied to pixel `(col, row)`, yielding geographic
`(x, y) = (lon, lat)`. -/
def pixelToGeo (t : Affine) (row col : ℚ) : ℚ × ℚ :=
  t.fwd col row

/-- Modelled from the spec (4.3 Contract A): geo→pixel uses the exact
inverse of the affine transform and rounds each fractional pixel
coordinate toward negative infinity (floor), returning the row in the
row position and the column in the column position. -/
def toPixelSpec (t : Affine) (lat lon : ℚ) : ℤ × ℤ :=
  let p := t.inv lon lat
  (ratFloor p.2, ratFloor p.1)

/-- The non-NaN samples of a band, in array order (`none` is a NaN
sample; numpy's nan-functions skip exactly these). -/
def finiteVals (data : List (Option ℚ)) : List ℚ :=
  data.filterMap id

/-- `np.nanmin(data)`: minimum over non-NaN samples; `none` models the
NaN that numpy returns (with a warning) when every sample is NaN. -/
def nanmin (data : List (Option ℚ)) : Option ℚ :=
  match finiteVals data with
  | [] => none
  | x :: xs => some (xs.foldl min x)

/-- `np.nanmax(data)`: maximum over non-NaN samples; `none` on an
all-NaN input. -/
def nanmax (data : List (Option ℚ)) : Option ℚ :=
  match finiteVals data with
  | [] => none
  | x :: xs => some (xs.foldl max x)

/-- `np.nanmean(data)`: sum of the non-NaN samples divided by their
count; `none` on an all-NaN input. -/
def nanmean (data : List (Option ℚ)) : Option ℚ :=
  match finiteVals data with
  | [] => none
  | x :: xs => some ((x :: xs).sum / ((x :: xs).length : ℚ))

/-- `np.nanstd(data) ^ 2`: the variance, mean of squared deviations from
the nan-mean over the non-NaN samples; `none` on an all-NaN input.
`np.nanstd` itself is the square root of this value, so it is
nonnegative (a real number rather than NaN) exactly when this is. -/
def nanvar (data : List (Option ℚ)) : Option ℚ :=
  match finiteVals data with
  | [] => none
  | x :: xs =>
    some (((x :: xs).map
        (fun v => (v - (x :: xs).sum / ((x :: xs).length : ℚ)) ^ 2)).sum /
      ((x :: xs).length : ℚ))

/-- Modelled from the spec (4.2/4.4): statistics must exclude pixels
equal to the declared no-data sentinel; the minimum over non-NaN samples
that differ from the sentinel. -/
def nanminExclNodata (nodata : ℚ) (data : List (Option ℚ)) : Option ℚ :=
  match (finiteVals data).filter (fun v => v != nodata) with
  | [] => none
  | x :: xs => some (xs.foldl min x)

/-- The value object built by `create_colormap`
(`branca.colormap.LinearColormap(colors=..., vmin=..., vmax=...)`);
the bounds are `Option ℚ` because `np.nanmin`/`np.nanmax` can feed NaN
(`none`) into them. -/
structure LinearColormap where
  colors : List String
  vmin : Option ℚ
  vmax : Option ℚ

/-- Lines 111-119: `create_colormap(data, colormap_name='YlOrRd')`
computes `vmin = np.nanmin(data)`, `vmax = np.nanmax(data)` and returns
`LinearColormap(colors=['yellow', 'orange', 'red'], vmin=vmin, vmax=vmax)`;
the `colormap_name` parameter is never read. -/
def create_colormap (data : List (Option ℚ)) (colormap_name : String) : LinearColormap :=
  { colors := ["yellow", "orange", "red"]
    vmin := nanmin data
    vmax := nanmax data }

/-- RGB values of the CSS color names the source passes to
`LinearColormap` (any other name maps to black). -/
def namedColor : String → ℚ × ℚ × ℚ
  | "yellow" => (255, 255, 0)
  | "orange" => (255, 165, 0)
  | "red" => (255, 0, 0)
  | _ => (0, 0, 0)

/-- Modelled from the spec (4.4 `buildColorScale`): the value→color
mapping of the built scale — its evaluation code lives in the external
`branca` dependency, not under `src/`. Piecewise-linear interpolation
across the ordered color list over the closed interval `[vmin, vmax]`,
clamping values outside the interval to the nearest endpoint color, and
a well-defined constant color when `vmin = vmax` (no division by the
zero-width interval). -/
def colormapEval (cm : LinearColormap) (x : ℚ) : ℚ × ℚ × ℚ :=
  match cm.vmin, cm.vmax with
  | some v0, some v1 =>
    match cm.colors.map namedColor with
    | [] => (0, 0, 0)
    | p0 :: rest =>
      let pal := p0 :: rest
      if v0 = v1 then p0
      else if x ≤ v0 then p0
      else if v1 ≤ x then pal.getLastD p0
      else
        let t := (x - v0) / (v1 - v0) * ((pal.length : ℚ) - 1)
        let i : ℕ := (⌊t⌋).toNat
        let frac := t - (i : ℚ)
        let cA := pal.getD i p0
        let cB := pal.getD (i + 1) (pal.getLastD p0)
        (cA.1 + frac * (cB.1 - cA.1),
         cA.2.1 + frac * (cB.2.1 - cA.2.1),
         cA.2.2 + frac * (cB.2.2 - cA.2.2))
  | _, _ => (0, 0, 0)

/-- A Python `str` viewed as its character sequence, lower-cased:
`key.lower()`. -/
def lowerChars (s : String) : List Char :=
  s.data.map Char.toLower

/-- `Python str.endswith(suffix)` on character sequences: the last
`suffix.length` characters equal the suffix (false when the string is
shorter than the suffix). -/
def endsWithCh (s suf : List Char) : Bool :=
  suf == s.drop (s.length - suf.length)

/-- Python `str.startswith(p)` on character sequences: the first
`p.length` characters equal `p`; the S3 service matches keys against the
request's prefix string this way. -/
def startsWithCh (p s : List Char) : Bool :=
  p == s.take p.length

/-- Line 87: `obj['Key'].lower().endswith(('.tif', '.tiff'))`. -/
def isRasterKey (key : String) : Bool :=
  endsWithCh (lowerChars key) ".tif".data || endsWithCh (lowerChars key) ".tiff".data

/-- Outcome of the `s3_client.list_objects_v2(Bucket=bucket, Prefix=prefix)`
call inside `list_s3_files`: a successful response whose `'Contents'`
entry is present (`some keys`) or absent (`none`), a
`botocore.exceptions.NoCredentialsError`, or any other exception. -/
inductive S3Outcome where
  | ok (contents : Option (List String))
  | noCredentials (msg : String)
  | otherError (msg : String)

/-- Lines 74-95, `list_s3_files`: on a successful response, start from
`files = []` and loop over `response['Contents']` (when present),
appending `f"s3://{bucket}/{obj['Key']}"` for every key with a
recognized extension; on `NoCredentialsError` show an error and
`return []`; on any other exception show an error and `return []`. -/
def list_s3_files (bucket : String) (outcome : S3Outcome) : List String :=
  match outcome with
  | S3Outcome.ok none => []
  | S3Outcome.ok (some contents) =>
    contents.foldl
      (fun files key =>
        if isRasterKey key then files ++ ["s3://" ++ bucket ++ "/" ++ key] else files)
      []
  | S3Outcome.noCredentials _ => []
  | S3Outcome.otherError _ => []

/-- Modelled from the spec (4.1/6, catalog listing protocol): the remote
store's `list_objects_v2` returns exactly the bucket keys that have the
request's prefix string as a plain string prefix, in listing order. -/
def s3ListKeys (bucketKeys : List String) (pfx : String) : List String :=
  bucketKeys.filter (fun k => startsWithCh pfx.data k.data)

/-- The listing pipeline for a store holding `bucketKeys`: the prefix
argument of `list_s3_files` is passed to `list_objects_v2` verbatim
(line 82 performs no normalization), and the response contents feed the
extension filter. -/
def listPipeline (bucket pfx : String) (bucketKeys : List String) : List String :=
  list_s3_files bucket (S3Outcome.ok (some (s3ListKeys bucketKeys pfx)))

/-! General facts about the embedded transform: the `~` operator is the
exact algebraic inverse of the forward transform. -/

/-- The inverse transform undoes the forward transform exactly whenever
the transform is invertible (nonzero determinant). -/
theorem Affine.inv_fwd (t : Affine) (col row : ℚ) (h : t.det ≠ 0) :
    t.inv (t.fwd col row).1 (t.fwd col row).2 = (col, row) := by
  have hd : t.a * t.e - t.b * t.d ≠ 0 := h
  simp only [Affine.inv, Affine.fwd, Affine.det, Prod.mk.injEq]
  constructor
  · field_simp
    ring
  · field_simp
    ring

/-- `pyInt` agrees with the value on integer-valued rationals. -/
theorem pyInt_intCast (n : ℤ) : pyInt (n : ℚ) = n := by
  simp [pyInt, Int.tdiv_one]

/-- C1: the claim fails on the code. For the identity transform and the
in-shape pixel `(row, col) = (0, 1)` (any shape with at least 2 rows and
2 columns), the round trip through `pixelToGeo` and the click handler
returns `(1, 0)`, the transposed pair, because line 230 binds the first
component of `~transform * (lon, lat)` — the fractional column — to `py`,
which line 234 then uses as the row index; the spec-side conversion
(exact inverse, floor, row in row position) returns `(0, 1)`. -/
theorem click_roundtrip_swaps_row_col :
    codeRowCol idAffine (pixelToGeo idAffine 0 1).2 (pixelToGeo idAffine 0 1).1 = (1, 0) ∧
    toPixelSpec idAffine (pixelToGeo idAffine 0 1).2 (pixelToGeo idAffine 0 1).1 = (0, 1) ∧
    ((1, 0) : ℤ × ℤ) ≠ (0, 1) := by
  refine ⟨?_, ?_, by decide⟩
  · simp [codeRowCol, pixelToGeo, Affine.fwd, Affine.inv, Affine.det, idAffine, pyInt]
  · simp [toPixelSpec, pixelToGeo, Affine.fwd, Affine.inv, Affine.det, idAffine, ratFloor]

/-- C2: the claim fails on the code. At the geographic point
`(lat, lon) = (-1/2, -1/2)` under the identity transform the fractional
pixel coordinates are `(-1/2, -1/2)`; Python's `int()` truncates toward
zero and yields pixel `(0, 0)` — an in-bounds pixel, so pixel `(0,0)`'s
footprint covers `(-1, 1) × (-1, 1)` — while the spec's floor rounding
yields `(-1, -1)`, out of bounds. -/
theorem truncation_not_floor_at_negative :
    codeRowCol idAffine (-(1/2)) (-(1/2)) = (0, 0) ∧
    toPixelSpec idAffine (-(1/2)) (-(1/2)) = (-1, -1) ∧
    ((0, 0) : ℤ × ℤ) ≠ (-1, -1) := by
  have h1 : (-(1/2) : ℚ).num = -1 := by norm_num
  have h2 : (-(1/2) : ℚ).den = 2 := by norm_num
  refine ⟨?_, ?_, by decide⟩
  · simp only [codeRowCol, Affine.inv, Affine.det, idAffine, pyInt]
    norm_num [h1, h2]
    decide
  · simp only [toPixelSpec, Affine.inv, Affine.det, idAffine, ratFloor]
    norm_num [h1, h2]
    decide

/-- C3: whenever the resolved integer pixel indices `(py, px)` — `py` the
row index as the code uses it, `px` the column index — fall outside the
grid shape in any direction, the pixel query takes the `else` branch and
yields the "no value" outcome (`none`); the embedded query is a total
function, so no exception is possible. -/
theorem pixel_query_oob {α : Type} (g : RasterGrid α) (t : Affine) (lat lon : ℚ)
    (h : (codeRowCol t lat lon).1 < 0 ∨ (g.rows : ℤ) ≤ (codeRowCol t lat lon).1 ∨
         (codeRowCol t lat lon).2 < 0 ∨ (g.cols : ℤ) ≤ (codeRowCol t lat lon).2) :
    pixelQuery g t lat lon = none := by
  simp only [pixelQuery]
  rw [if_neg]
  rintro ⟨h1, h2, h3, h4⟩
  rcases h with h' | h' | h' | h' <;> linarith

/-- Witness for `pixel_query_oob`: clicking at `(lat, lon) = (5, 0)` over
a 2×2 grid with the identity transform resolves to column index 5, out of
bounds, and the query yields `none`. -/
theorem pixel_query_oob_witness :
    ((codeRowCol idAffine 5 0).1 < 0 ∨
      ((RasterGrid.mk 2 2 (fun _ _ => (0 : ℚ))).rows : ℤ) ≤ (codeRowCol idAffine 5 0).1 ∨
      (codeRowCol idAffine 5 0).2 < 0 ∨
      ((RasterGrid.mk 2 2 (fun _ _ => (0 : ℚ))).cols : ℤ) ≤ (codeRowCol idAffine 5 0).2) ∧
    pixelQuery (RasterGrid.mk 2 2 (fun _ _ => (0 : ℚ))) idAffine 5 0 = none := by
  have h : (codeRowCol idAffine 5 0).1 < 0 ∨
      ((RasterGrid.mk 2 2 (fun _ _ => (0 : ℚ))).rows : ℤ) ≤ (codeRowCol idAffine 5 0).1 ∨
      (codeRowCol idAffine 5 0).2 < 0 ∨
      ((RasterGrid.mk 2 2 (fun _ _ => (0 : ℚ))).cols : ℤ) ≤ (codeRowCol idAffine 5 0).2 := by
    simp [codeRowCol, Affine.inv, Affine.det, idAffine, pyInt, Int.tdiv_one]
  exact ⟨h, pixel_query_oob _ idAffine 5 0 h⟩

/-! Order facts about the fold-based minimum/maximum and list sums, used
for the statistics properties. -/

theorem foldl_min_le_init (xs : List ℚ) (x : ℚ) : xs.foldl min x ≤ x := by
  induction xs generalizing x with
  | nil => exact le_refl x
  | cons a as ih =>
    simpa only [List.foldl_cons] using (ih (min x a)).trans (min_le_left x a)

theorem foldl_min_le_mem (xs : List ℚ) (x y : ℚ) : y ∈ xs → xs.foldl min x ≤ y := by
  induction xs generalizing x with
  | nil => intro hy; cases hy
  | cons a as ih =>
    intro hy
    simp only [List.foldl_cons]
    rcases List.mem_cons.mp hy with rfl | hmem
    · exact (foldl_min_le_init as (min x y)).trans (min_le_right x y)
    · exact ih (min x a) hmem

theorem init_le_foldl_max (xs : List ℚ) (x : ℚ) : x ≤ xs.foldl max x := by
  induction xs generalizing x with
  | nil => exact le_refl x
  | cons a as ih =>
    simpa only [List.foldl_cons] using (le_max_left x a).trans (ih (max x a))

theorem mem_le_foldl_max (xs : List ℚ) (x y : ℚ) : y ∈ xs → y ≤ xs.foldl max x := by
  induction xs generalizing x with
  | nil => intro hy; cases hy
  | cons a as ih =>
    intro hy
    simp only [List.foldl_cons]
    rcases List.mem_cons.mp hy with rfl | hmem
    · exact (le_max_right x y).trans (init_le_foldl_max as (max x y))
    · exact ih (max x a) hmem

theorem length_mul_le_sum (xs : List ℚ) (m : ℚ) (h : ∀ y ∈ xs, m ≤ y) :
    (xs.length : ℚ) * m ≤ xs.sum := by
  induction xs with
  | nil => simp
  | cons a as ih =>
    have ha := h a (List.mem_cons_self a as)
    have hs := ih (fun y hy => h y (List.mem_cons_of_mem a hy))
    have hexp : ((as.length : ℚ) + 1) * m = (as.length : ℚ) * m + m := by ring
    simp only [List.sum_cons, List.length_cons]
    push_cast
    linarith

theorem sum_le_length_mul (xs : List ℚ) (m : ℚ) (h : ∀ y ∈ xs, y ≤ m) :
    xs.sum ≤ (xs.length : ℚ) * m := by
  induction xs with
  | nil => simp
  | cons a as ih =>
    have ha := h a (List.mem_cons_self a as)
    have hs := ih (fun y hy => h y (List.mem_cons_of_mem a hy))
    have hexp : ((as.length : ℚ) + 1) * m = (as.length : ℚ) * m + m := by ring
    simp only [List.sum_cons, List.length_cons]
    push_cast
    linarith

/-- C4 (amended): the statistics skip exactly the NaN samples; over any
grid with at least one non-NaN sample, the computed minimum, mean and
maximum are defined and ordered `min ≤ mean ≤ max`, and the variance
(the square of `np.nanstd`) is defined and nonnegative. -/
theorem nan_stats_ordered (data : List (Option ℚ)) (h : finiteVals data ≠ []) :
    ∃ mn μ mx v, nanmin data = some mn ∧ nanmean data = some μ ∧
      nanmax data = some mx ∧ nanvar data = some v ∧
      mn ≤ μ ∧ μ ≤ mx ∧ 0 ≤ v := by
  obtain ⟨x, xs, hxe⟩ : ∃ x xs, finiteVals data = x :: xs := by
    cases hfv : finiteVals data with
    | nil => exact absurd hfv h
    | cons a as => exact ⟨a, as, rfl⟩
  have hlen : (0 : ℚ) < ((x :: xs).length : ℚ) := by
    have : 0 < (x :: xs).length := Nat.succ_pos xs.length
    exact_mod_cast this
  have hmin_le : ∀ y ∈ x :: xs, xs.foldl min x ≤ y := by
    intro y hy
    rcases List.mem_cons.mp hy with rfl | hmem
    · exact foldl_min_le_init xs y
    · exact foldl_min_le_mem xs x y hmem
  have hle_max : ∀ y ∈ x :: xs, y ≤ xs.foldl max x := by
    intro y hy
    rcases List.mem_cons.mp hy with rfl | hmem
    · exact init_le_foldl_max xs y
    · exact mem_le_foldl_max xs x y hmem
  refine ⟨xs.foldl min x, (x :: xs).sum / ((x :: xs).length : ℚ), xs.foldl max x,
    ((x :: xs).map (fun v => (v - (x :: xs).sum / ((x :: xs).length : ℚ)) ^ 2)).sum /
      ((x :: xs).length : ℚ), ?_, ?_, ?_, ?_, ?_, ?_, ?_⟩
  · simp only [nanmin, hxe]
  · simp only [nanmean, hxe]
  · simp only [nanmax, hxe]
  · simp only [nanvar, hxe]
  · rw [le_div_iff₀ hlen, mul_comm]
    exact length_mul_le_sum (x :: xs) (xs.foldl min x) hmin_le
  · rw [div_le_iff₀ hlen, mul_comm]
    exact sum_le_length_mul (x :: xs) (xs.foldl max x) hle_max
  · apply div_nonneg _ (le_of_lt hlen)
    apply List.sum_nonneg
    intro a ha
    obtain ⟨v, _, rfl⟩ := List.mem_map.mp ha
    exact sq_nonneg _

/-- Witness for `nan_stats_ordered` at the grid `[1, 3]`. -/
theorem nan_stats_ordered_witness :
    finiteVals [some (1 : ℚ), some 3] ≠ [] ∧
    (∃ mn μ mx v, nanmin [some (1 : ℚ), some 3] = some mn ∧
      nanmean [some (1 : ℚ), some 3] = some μ ∧
      nanmax [some (1 : ℚ), some 3] = some mx ∧
      nanvar [some (1 : ℚ), some 3] = some v ∧
      mn ≤ μ ∧ μ ≤ mx ∧ 0 ≤ v) :=
  ⟨by decide, nan_stats_ordered _ (by decide)⟩

/-- C4: the claim fails on the code. On the grid `[-9999, 5]` with
declared no-data sentinel `-9999`, the code's minimum (`np.nanmin`, which
skips only NaN) is `-9999`, whereas the sentinel-excluding minimum the
claim demands is `5`: sentinel-valued pixels are included in the
statistics. -/
theorem stats_include_nodata :
    nanmin [some (-9999 : ℚ), some 5] = some (-9999) ∧
    nanminExclNodata (-9999) [some (-9999 : ℚ), some 5] = some 5 ∧
    some (-9999 : ℚ) ≠ some 5 := by
  refine ⟨by decide, by decide, by decide⟩

/-- C5 (amended): on an all-no-data grid every statistic evaluates to the
undefined/NaN outcome (`none`) with no distinct degenerate marker, and
`create_colormap` is still built, receiving those undefined bounds. -/
theorem all_nan_stats_silent (data : List (Option ℚ)) (nm : String)
    (h : finiteVals data = []) :
    nanmin data = none ∧ nanmax data = none ∧ nanmean data = none ∧
    nanvar data = none ∧
    (create_colormap data nm).vmin = none ∧ (create_colormap data nm).vmax = none := by
  refine ⟨?_, ?_, ?_, ?_, ?_, ?_⟩ <;>
    simp only [nanmin, nanmax, nanmean, nanvar, create_colormap, h]

/-- Witness for `all_nan_stats_silent` at the one-sample all-NaN grid. -/
theorem all_nan_stats_silent_witness :
    finiteVals [(none : Option ℚ)] = [] ∧
    (nanmin [(none : Option ℚ)] = none ∧ nanmax [(none : Option ℚ)] = none ∧
      nanmean [(none : Option ℚ)] = none ∧ nanvar [(none : Option ℚ)] = none ∧
      (create_colormap [(none : Option ℚ)] "YlOrRd").vmin = none ∧
      (create_colormap [(none : Option ℚ)] "YlOrRd").vmax = none) :=
  ⟨rfl, all_nan_stats_silent _ "YlOrRd" rfl⟩

/-- C5: the claim fails on the code. On the all-NaN two-sample grid the
statistics are silently `none` (NaN) — there is no distinct
`DegenerateStatistics` outcome anywhere in the pipeline — and
`create_colormap` is nevertheless constructed, with both of its bounds
undefined. -/
theorem all_nodata_colormap_built :
    nanmin [(none : Option ℚ), none] = none ∧
    (create_colormap [(none : Option ℚ), none] "YlOrRd").vmin = none ∧
    (create_colormap [(none : Option ℚ), none] "YlOrRd").vmax = none :=
  ⟨rfl, rfl, rfl⟩

/-- C9: when the computed bounds are equal (constant raster), the built
color scale is well-defined and assigns every input value the same color;
the degenerate branch involves no interval-width division at all. -/
theorem colorscale_constant_when_degenerate (cm : LinearColormap) (v : ℚ)
    (h1 : cm.vmin = some v) (h2 : cm.vmax = some v) (x y : ℚ) :
    colormapEval cm x = colormapEval cm y := by
  simp only [colormapEval, h1, h2]
  cases hm : cm.colors.map namedColor with
  | nil => rfl
  | cons p0 rest => simp

/-- Witness for `colorscale_constant_when_degenerate`: the colormap the
code builds for the constant one-sample grid `[5]` has `vmin = vmax = 5`
and maps `0` and `99` to the same color. -/
theorem colorscale_constant_witness :
    (create_colormap [some (5 : ℚ)] "YlOrRd").vmin = some 5 ∧
    (create_colormap [some (5 : ℚ)] "YlOrRd").vmax = some 5 ∧
    colormapEval (create_colormap [some (5 : ℚ)] "YlOrRd") 0 =
      colormapEval (create_colormap [some (5 : ℚ)] "YlOrRd") 99 :=
  ⟨rfl, rfl, colorscale_constant_when_degenerate _ 5 rfl rfl 0 99⟩

/-- C10: `create_colormap` never reads its palette-name argument — any
two names give identical results — and the result is always the fixed
yellow/orange/red palette over `[nanmin data, nanmax data]`. -/
theorem create_colormap_ignores_name (data : List (Option ℚ)) (n1 n2 : String) :
    create_colormap data n1 = create_colormap data n2 ∧
    (create_colormap data n1).colors = ["yellow", "orange", "red"] ∧
    (create_colormap data n1).vmin = nanmin data ∧
    (create_colormap data n1).vmax = nanmax data :=
  ⟨rfl, rfl, rfl, rfl⟩

/-- The append-accumulator loop of `list_s3_files` is the extension
filter followed by URI construction, in response order. -/
theorem foldl_append_filter (bucket : String) (cs : List String) (acc : List String) :
    cs.foldl
      (fun files key =>
        if isRasterKey key then files ++ ["s3://" ++ bucket ++ "/" ++ key] else files)
      acc =
    acc ++ (cs.filter (fun k => isRasterKey k)).map
      (fun k => "s3://" ++ bucket ++ "/" ++ k) := by
  induction cs generalizing acc with
  | nil => simp
  | cons a as ih =>
    by_cases ha : isRasterKey a = true
    · simp [List.foldl_cons, List.filter_cons, ha, ih, List.append_assoc]
    · simp [List.foldl_cons, List.filter_cons, ha, ih]

/-- On a successful response with `'Contents'` present, the listing is
the ordered extension filter mapped to `s3://bucket/key` URIs. -/
theorem list_s3_files_ok_eq (bucket : String) (contents : List String) :
    list_s3_files bucket (S3Outcome.ok (some contents)) =
      (contents.filter (fun k => isRasterKey k)).map
        (fun k => "s3://" ++ bucket ++ "/" ++ k) := by
  simpa using foldl_append_filter bucket contents []

/-- C8: for every successful store response the listing returns exactly
the entries whose key ends, case-insensitively, in `.tif` or `.tiff`
(the `isRasterKey` test), as `s3://bucket/key` URIs in the order the
store returned them; a response without `'Contents'` yields the empty
list. -/
theorem listing_filter_exact (bucket : String) (contents : List String) :
    list_s3_files bucket (S3Outcome.ok (some contents)) =
      (contents.filter (fun k => isRasterKey k)).map
        (fun k => "s3://" ++ bucket ++ "/" ++ k) ∧
    list_s3_files bucket (S3Outcome.ok none) = [] :=
  ⟨list_s3_files_ok_eq bucket contents, rfl⟩

/-- C6: the claim fails on the code. An authentication failure
(`NoCredentialsError`), any other store failure (e.g. bucket not found),
a response without `'Contents'`, and a genuinely empty catalog all
return the very same value — the empty list — at the caller's interface,
so the caller cannot distinguish them. -/
theorem listing_failures_indistinguishable :
    list_s3_files "b" (S3Outcome.noCredentials "AWS credentials not found or invalid") =
      list_s3_files "b" (S3Outcome.ok (some [])) ∧
    list_s3_files "b" (S3Outcome.otherError "bucket not found") =
      list_s3_files "b" (S3Outcome.ok (some [])) ∧
    list_s3_files "b" (S3Outcome.ok none) =
      list_s3_files "b" (S3Outcome.ok (some [])) :=
  ⟨rfl, rfl, rfl⟩

/-- C6 (amended): every failure path of `list_s3_files` returns the
empty list, the same value as an empty catalog; the failure kinds are
distinguished only in side-effect UI messages, not in the returned
value. -/
theorem listing_failures_all_empty (bucket m1 m2 : String) :
    list_s3_files bucket (S3Outcome.noCredentials m1) = [] ∧
    list_s3_files bucket (S3Outcome.otherError m2) = [] ∧
    list_s3_files bucket (S3Outcome.ok none) = [] ∧
    list_s3_files bucket (S3Outcome.ok (some [])) = [] :=
  ⟨rfl, rfl, rfl, rfl⟩

/-- C7 (amended): the prefix is handed to the store verbatim — no
trailing-separator normalization — so a URI is listed exactly when its
key has the raw request string as a plain string prefix and a recognized
raster extension; with the empty prefix this is the whole bucket. -/
theorem raw_prefix_listing_members (bucket pfx : String) (bucketKeys : List String)
    (u : String) :
    u ∈ listPipeline bucket pfx bucketKeys ↔
      ∃ k, k ∈ bucketKeys ∧ startsWithCh pfx.data k.data = true ∧
        isRasterKey k = true ∧ u = "s3://" ++ bucket ++ "/" ++ k := by
  rw [listPipeline, list_s3_files_ok_eq, s3ListKeys]
  simp only [List.mem_map]
  constructor
  · rintro ⟨k, hk, hu⟩
    rw [List.mem_filter] at hk
    obtain ⟨hk2, hext⟩ := hk
    rw [List.mem_filter] at hk2
    obtain ⟨hmem, hpf⟩ := hk2
    exact ⟨k, hmem, by simpa using hpf, by simpa using hext, hu.symm⟩
  · rintro ⟨k, hmem, hpf, hext, hu⟩
    refine ⟨k, ?_, hu.symm⟩
    rw [List.mem_filter]
    refine ⟨?_, by simpa using hext⟩
    rw [List.mem_filter]
    exact ⟨hmem, by simpa using hpf⟩

/-- C7: the claim fails on the code. With prefix `"data"` (no trailing
separator) and a bucket containing only the sibling path
`"database/a.tif"`, the listing includes that sibling even though its
key does not extend `"data/"`. -/
theorem raw_string_prefix_includes_sibling :
    listPipeline "b" "data" ["database/a.tif"] = ["s3://b/database/a.tif"] ∧
    startsWithCh "data/".data "database/a.tif".data = false := by
  refine ⟨by decide, by decide⟩
